import Mathlib

/-!
Verification of the `go-storage` fio engine adapter
(`src/go-storage-fio-engine.c`) against its natural-language design.

The adapter is embedded shallowly: each C callback becomes a Lean
function parameterised by a `Backend` record holding the external
`Mrd*` entry points, and each function additionally returns the list
of backend calls it performs, so that "calls MrdQueue with these
arguments" and "never calls MrdQueue" are statable as facts about the
returned trace.  Pointers that only cross the boundary opaquely
(buffers, tokens) are machine words modelled as `Nat`; the dereferenced
`io_u` record is modelled as a value.  The backend reactor itself is
not part of the adapter source; where a claim is about reactor
behaviour, a separate model written from the design text is used and
marked as such.
-/

namespace GoStorage

/-- fio direction code for a read request (`DDIR_READ`). -/
def DDIR_READ : Nat := 0

/-- fio direction code for a write request (`DDIR_WRITE`). -/
def DDIR_WRITE : Nat := 1

/-- errno value `EINVAL`. -/
def EINVAL : Int := 22

/-- Return statuses of the fio queue callback (`enum fio_q_status`). -/
inductive FioQStatus where
  | completed
  | queued
  | busy
deriving DecidableEq, Repr

/-- `struct fio_file`: the fields the adapter touches.  `engine_data`
is a machine word; `0` models the C `NULL`. -/
structure FioFile where
  file_name : String
  engine_data : Nat
deriving DecidableEq, Repr

/-- `struct io_u`: the fields the adapter touches.  `xfer_buf` is the
buffer address as a machine word. -/
structure IoU where
  ddir : Nat
  error : Int
  offset : Nat
  xfer_buf : Nat
  xfer_buflen : Nat
  file : FioFile
deriving DecidableEq, Repr

/-- `struct thread_data`: the fields the adapter touches
(`td->o.iodepth` and `td->io_ops_data`, the latter a machine word). -/
structure ThreadData where
  iodepth : Nat
  io_ops_data : Nat
deriving DecidableEq, Repr

/-- A `struct timespec` deadline; the adapter receives it as a
possibly-NULL pointer, modelled as an `Option`. -/
structure Timespec where
  tv_sec : Int
  tv_nsec : Int
deriving DecidableEq, Repr

/-- One call into the backend, recorded with its arguments. -/
inductive MrdCall where
  | initCall (depth : Nat)
  | cleanupCall (completions : Nat)
  | awaitCall (completions : Nat) (mn mx : Nat)
  | getEventCall (completions : Nat)
  | openCall (completions : Nat) (path : String)
  | closeCall (mrd : Nat)
  | queueCall (completions mrd : Nat) (iou : IoU) (offset buf len : Nat)
deriving DecidableEq, Repr

/-- The external backend entry points the adapter links against.
`MrdGetEvent` returns the `io_u` the pointer `r.r0` refers to, as a
value, together with the error code `r.r1`. -/
structure Backend where
  MrdInit : Nat → Nat
  MrdAwaitCompletions : Nat → Nat → Nat → Int
  MrdGetEvent : Nat → IoU × Int
  MrdOpen : Nat → String → Nat
  MrdClose : Nat → Int
  MrdQueue : Nat → Nat → IoU → Nat → Nat → Nat → Int

/-- `go_storage_init`: calls `MrdInit(td->o.iodepth)`; on a zero token
returns 1 leaving `td` unchanged, otherwise stores the token in
`td->io_ops_data` and returns 0. -/
def go_storage_init (B : Backend) (td : ThreadData) :
    Int × ThreadData × List MrdCall :=
  let completions := B.MrdInit td.iodepth
  if completions = 0 then
    (1, td, [MrdCall.initCall td.iodepth])
  else
    (0, { td with io_ops_data := completions }, [MrdCall.initCall td.iodepth])

/-- `go_storage_cleanup`: calls `MrdCleanup(td->io_ops_data)`.  The
backend call returns nothing, so only the trace is of interest. -/
def go_storage_cleanup (td : ThreadData) : List MrdCall :=
  [MrdCall.cleanupCall td.io_ops_data]

/-- `go_storage_getevents`: forwards to
`MrdAwaitCompletions(td->io_ops_data, min, max)`; the `timespec`
argument `t` is ignored (the C has a TODO for it). -/
def go_storage_getevents (B : Backend) (td : ThreadData) (mn mx : Nat)
    (t : Option Timespec) : Int × List MrdCall :=
  let completions := td.io_ops_data
  (B.MrdAwaitCompletions completions mn mx,
   [MrdCall.awaitCall completions mn mx])

/-- `go_storage_event`: pops one completion via
`MrdGetEvent(td->io_ops_data)`, writes the returned error code into the
returned `io_u`, and hands that `io_u` back; the index `ev` is unused. -/
def go_storage_event (B : Backend) (td : ThreadData) (ev : Int) :
    IoU × List MrdCall :=
  let completions := td.io_ops_data
  let r := B.MrdGetEvent completions
  ({ r.1 with error := r.2 }, [MrdCall.getEventCall completions])

/-- `go_storage_open_file`: calls
`MrdOpen(td->io_ops_data, f->file_name)`; on a zero token returns 1
leaving `f` unchanged, otherwise stores the session token in
`f->engine_data` and returns 0. -/
def go_storage_open_file (B : Backend) (td : ThreadData) (f : FioFile) :
    Int × FioFile × List MrdCall :=
  let completions := td.io_ops_data
  let mrd := B.MrdOpen completions f.file_name
  if mrd = 0 then
    (1, f, [MrdCall.openCall completions f.file_name])
  else
    (0, { f with engine_data := mrd },
     [MrdCall.openCall completions f.file_name])

/-- `go_storage_close_file`: returns `MrdClose(f->engine_data)` and
unconditionally clears `f->engine_data` to NULL afterwards. -/
def go_storage_close_file (B : Backend) (td : ThreadData) (f : FioFile) :
    Int × FioFile × List MrdCall :=
  (B.MrdClose f.engine_data, { f with engine_data := 0 },
   [MrdCall.closeCall f.engine_data])

/-- `go_storage_queue`: a non-read direction is rejected synchronously
with `EINVAL` in `iou->error` and status `FIO_Q_COMPLETED`, with no
backend call; a read is handed to `MrdQueue` with the reactor token,
the file's session token, the `io_u` itself as correlation token, and
its offset, buffer and length, the backend's return value is written
into `iou->error`, and the status is `FIO_Q_QUEUED`. -/
def go_storage_queue (B : Backend) (td : ThreadData) (iou : IoU) :
    FioQStatus × IoU × List MrdCall :=
  let completions := td.io_ops_data
  let mrd := iou.file.engine_data
  if iou.ddir ≠ DDIR_READ then
    (FioQStatus.completed, { iou with error := EINVAL }, [])
  else
    (FioQStatus.queued,
     { iou with error :=
         B.MrdQueue completions mrd iou iou.offset iou.xfer_buf iou.xfer_buflen },
     [MrdCall.queueCall completions mrd iou iou.offset iou.xfer_buf
        iou.xfer_buflen])

/-- errno value `EAGAIN`, used by the reactor model as its explicit
full-queue rejection code (the design leaves the exact backpressure
code open but requires an explicit rejection). -/
def EAGAIN : Int := 11

/-- Modelled from the spec: the backend Reactor state.  The reactor
implementation behind `MrdInit`/`MrdQueue`/`MrdAwaitCompletions` is not
part of the adapter source; this model follows §3/§4.3 of the design:
a fixed capacity, a queue of in-flight correlation tokens, and a
completion queue of (correlation token, error code) pairs. -/
structure ReactorState where
  capacity : Nat
  inFlight : List Nat
  completed : List (Nat × Int)
deriving DecidableEq, Repr

/-- The design invariant: in-flight plus completed-but-undrained
requests never exceed capacity. -/
def reactorInv (st : ReactorState) : Prop :=
  st.inFlight.length + st.completed.length ≤ st.capacity

instance (st : ReactorState) : Decidable (reactorInv st) := by
  unfold reactorInv; infer_instance

/-- Modelled from the spec: `init(capacity)`; zero capacity yields
failure (`none`, the zero token), otherwise empty queues sized by the
capacity. -/
def reactorInitModel (c : Nat) : Option ReactorState :=
  if c = 0 then none else some ⟨c, [], []⟩

/-- Modelled from the spec: admission of a validated read request.
Admission fails with an explicit full-queue error when the queues are
already at capacity; otherwise the correlation token joins the
in-flight queue and the accepted status 0 is returned. -/
def reactorSubmit (st : ReactorState) (tok : Nat) : ReactorState × Int :=
  if st.capacity ≤ st.inFlight.length + st.completed.length then
    (st, EAGAIN)
  else
    ({ st with inFlight := st.inFlight ++ [tok] }, 0)

/-- Modelled from the spec: the backend finishing the oldest in-flight
request with error code `e`, moving it to the completion queue. -/
def reactorFinishOne (st : ReactorState) (e : Int) : ReactorState :=
  match st.inFlight with
  | [] => st
  | tok :: rest => ⟨st.capacity, rest, st.completed ++ [(tok, e)]⟩

/-- Modelled from the spec: `wait(reactor, min, max)`.  `sched` is the
schedule of error codes for the requests the backend finishes while
the caller is blocked; the finished requests move from in-flight to
the completion queue, and the returned count is the number now
available, capped at `mx`.  Blocking until at least `mn` are available
appears as a hypothesis on the state after the schedule ran. -/
def reactorWait (st : ReactorState) (mn mx : Nat) (sched : List Int) :
    ReactorState × Nat :=
  let st2 := sched.foldl reactorFinishOne st
  (st2, Nat.min st2.completed.length mx)

/-- Modelled from the spec: `drain_one`, popping the completion queue
in FIFO order; fails on an empty queue. -/
def reactorDrain (st : ReactorState) : Option ((Nat × Int) × ReactorState) :=
  match st.completed with
  | [] => none
  | c :: rest => some (c, ⟨st.capacity, st.inFlight, rest⟩)

/-- One reactor-facing operation, for stating the capacity invariant
over whole histories. -/
inductive ReactorOp where
  | submit (tok : Nat)
  | wait (mn mx : Nat) (sched : List Int)
  | drain
deriving DecidableEq, Repr

/-- State reached after one reactor operation (the request/count
results are dropped; only the state matters for the invariant). -/
def reactorStep (st : ReactorState) : ReactorOp → ReactorState
  | ReactorOp.submit tok => (reactorSubmit st tok).1
  | ReactorOp.wait mn mx sched => (reactorWait st mn mx sched).1
  | ReactorOp.drain =>
      match reactorDrain st with
      | none => st
      | some (_, st2) => st2

/-- State reached after a sequence of reactor operations. -/
def reactorExec (st : ReactorState) : List ReactorOp → ReactorState
  | [] => st
  | op :: ops => reactorExec (reactorStep st op) ops

/-! Concrete fixtures used to instantiate the theorems below. -/

/-- A concrete opened file: session token 5. -/
def fileEx : FioFile := ⟨"x", 5⟩

/-- A concrete write-direction `io_u`. -/
def iouWr : IoU := ⟨DDIR_WRITE, 0, 0, 0, 0, fileEx⟩

/-- A concrete read-direction `io_u`. -/
def iouRd : IoU := ⟨DDIR_READ, 0, 4096, 100, 4096, fileEx⟩

/-- A concrete thread state whose reactor token is 7. -/
def tdEx : ThreadData := ⟨4, 7⟩

/-- A concrete backend where every call succeeds. -/
def Bex : Backend :=
  { MrdInit := fun _ => 7
    MrdAwaitCompletions := fun _ mn _ => Int.ofNat mn
    MrdGetEvent := fun _ => (iouRd, 0)
    MrdOpen := fun _ _ => 9
    MrdClose := fun _ => 0
    MrdQueue := fun _ _ _ _ _ _ => 0 }

/-- A concrete backend where `MrdOpen` fails and `MrdQueue` reports
an immediate nonzero error. -/
def BexErr : Backend :=
  { MrdInit := fun _ => 0
    MrdAwaitCompletions := fun _ _ _ => 0
    MrdGetEvent := fun _ => (iouRd, 5)
    MrdOpen := fun _ _ => 0
    MrdClose := fun _ => 3
    MrdQueue := fun _ _ _ _ _ _ => 5 }

/-! Invariant-preservation lemmas for the reactor model. -/

/-- Submission preserves the capacity invariant. -/
theorem reactorInv_submit (st : ReactorState) (tok : Nat)
    (h : reactorInv st) : reactorInv (reactorSubmit st tok).1 := by
  unfold reactorInv reactorSubmit at *
  by_cases hc : st.capacity ≤ st.inFlight.length + st.completed.length
  · simp [hc]; exact h
  · simp [hc]; omega

/-- Finishing one request preserves the capacity invariant. -/
theorem reactorInv_finishOne (st : ReactorState) (e : Int)
    (h : reactorInv st) : reactorInv (reactorFinishOne st e) := by
  unfold reactorInv reactorFinishOne at *
  cases hf : st.inFlight with
  | nil => simpa using h
  | cons tok rest => simp [hf] at h ⊢; omega

/-- Finishing a whole schedule preserves the capacity invariant. -/
theorem reactorInv_foldFinish (sched : List Int) (st : ReactorState)
    (h : reactorInv st) : reactorInv (sched.foldl reactorFinishOne st) := by
  induction sched generalizing st with
  | nil => simpa using h
  | cons e rest ih => exact ih _ (reactorInv_finishOne st e h)

/-- The wait primitive preserves the capacity invariant. -/
theorem reactorInv_wait (st : ReactorState) (mn mx : Nat) (sched : List Int)
    (h : reactorInv st) : reactorInv (reactorWait st mn mx sched).1 :=
  reactorInv_foldFinish sched st h

/-- Draining preserves the capacity invariant. -/
theorem reactorInv_drain (st st2 : ReactorState) (c : Nat × Int)
    (h : reactorInv st) (hd : reactorDrain st = some (c, st2)) :
    reactorInv st2 := by
  unfold reactorInv reactorDrain at *
  cases hc : st.completed with
  | nil => simp [hc] at hd
  | cons x rest =>
      simp [hc] at hd h
      cases hd with
      | intro h1 h2 => subst h2; simp; omega

/-- Every single reactor operation preserves the capacity invariant. -/
theorem reactorInv_step (st : ReactorState) (op : ReactorOp)
    (h : reactorInv st) : reactorInv (reactorStep st op) := by
  cases op with
  | submit tok => exact reactorInv_submit st tok h
  | wait mn mx sched => exact reactorInv_wait st mn mx sched h
  | drain =>
      unfold reactorStep
      cases hd : reactorDrain st with
      | none => simpa using h
      | some p => exact reactorInv_drain st p.2 p.1 h (by simpa using hd)

/-- Every history of reactor operations preserves the capacity
invariant. -/
theorem reactorInv_exec (ops : List ReactorOp) (st : ReactorState)
    (h : reactorInv st) : reactorInv (reactorExec st ops) := by
  induction ops generalizing st with
  | nil => simpa [reactorExec] using h
  | cons op rest ih => exact ih _ (reactorInv_step st op h)

/-! Claim theorems. -/

/-- C1: every submitted `io_u` whose direction is not `DDIR_READ` is
rejected synchronously by `go_storage_queue`: its error field becomes
`EINVAL`, the return status is `FIO_Q_COMPLETED`, and the backend
trace is empty, so `MrdQueue` is never called and the request never
enters the in-flight queue. -/
theorem queue_nonread_rejected_synchronously (B : Backend)
    (td : ThreadData) (iou : IoU) (h : iou.ddir ≠ DDIR_READ) :
    go_storage_queue B td iou =
      (FioQStatus.completed, { iou with error := EINVAL }, []) := by
  simp [go_storage_queue, h]

/-- Witness for C1 at a concrete write-direction request. -/
theorem queue_nonread_rejected_synchronously_witness :
    go_storage_queue Bex tdEx iouWr =
      (FioQStatus.completed, { iouWr with error := EINVAL }, []) :=
  queue_nonread_rejected_synchronously Bex tdEx iouWr (by decide)

/-- C2: every submitted `io_u` whose direction is `DDIR_READ` is
admitted: `go_storage_queue` calls `MrdQueue` with the reactor token,
the file's session token, the `io_u` itself as correlation token, and
its offset, buffer and length, and returns `FIO_Q_QUEUED`, which is
distinct from `FIO_Q_COMPLETED`. -/
theorem queue_read_admitted (B : Backend) (td : ThreadData) (iou : IoU)
    (h : iou.ddir = DDIR_READ) :
    go_storage_queue B td iou =
      (FioQStatus.queued,
       { iou with error := B.MrdQueue td.io_ops_data iou.file.engine_data iou iou.offset iou.xfer_buf iou.xfer_buflen },
       [MrdCall.queueCall td.io_ops_data iou.file.engine_data iou iou.offset
          iou.xfer_buf iou.xfer_buflen]) ∧
    (go_storage_queue B td iou).1 ≠ FioQStatus.completed := by
  constructor
  · simp [go_storage_queue, h]
  · simp [go_storage_queue, h]

/-- Witness for C2 at a concrete read-direction request. -/
theorem queue_read_admitted_witness :
    go_storage_queue Bex tdEx iouRd =
      (FioQStatus.queued,
       { iouRd with error := Bex.MrdQueue tdEx.io_ops_data iouRd.file.engine_data iouRd iouRd.offset iouRd.xfer_buf iouRd.xfer_buflen },
       [MrdCall.queueCall tdEx.io_ops_data iouRd.file.engine_data iouRd
          iouRd.offset iouRd.xfer_buf iouRd.xfer_buflen]) ∧
    (go_storage_queue Bex tdEx iouRd).1 ≠ FioQStatus.completed :=
  queue_read_admitted Bex tdEx iouRd (by decide)

/-- C7: `go_storage_close_file` returns exactly the status produced by
`MrdClose` and in every case clears `f->engine_data` to NULL. -/
theorem close_file_returns_MrdClose_and_clears_token (B : Backend)
    (td : ThreadData) (f : FioFile) :
    go_storage_close_file B td f =
      (B.MrdClose f.engine_data, { f with engine_data := 0 },
       [MrdCall.closeCall f.engine_data]) := rfl

/-- C8: the result of `go_storage_getevents` is independent of its
`timespec` deadline argument: any two deadline values (including NULL,
modelled as `none`) give identical behaviour. -/
theorem getevents_ignores_deadline (B : Backend) (td : ThreadData)
    (mn mx : Nat) (t1 t2 : Option Timespec) :
    go_storage_getevents B td mn mx t1 = go_storage_getevents B td mn mx t2 :=
  rfl

/-- C9: for a read-direction request, `go_storage_queue` returns
`FIO_Q_QUEUED` for every backend, regardless of what `MrdQueue`
returns; the backend's immediate return value is reported only through
the request's error field. -/
theorem queue_status_independent_of_MrdQueue_result (B : Backend)
    (td : ThreadData) (iou : IoU) (h : iou.ddir = DDIR_READ) :
    (go_storage_queue B td iou).1 = FioQStatus.queued ∧
    (go_storage_queue B td iou).2.1.error =
      B.MrdQueue td.io_ops_data iou.file.engine_data iou iou.offset
        iou.xfer_buf iou.xfer_buflen := by
  constructor
  · simp [go_storage_queue, h]
  · simp [go_storage_queue, h]

/-- Witness for C9 at a backend whose `MrdQueue` reports an immediate
nonzero error: the status is still `FIO_Q_QUEUED` and the error lands
in the request's error field. -/
theorem queue_status_independent_of_MrdQueue_result_witness :
    (go_storage_queue BexErr tdEx iouRd).1 = FioQStatus.queued ∧
    (go_storage_queue BexErr tdEx iouRd).2.1.error =
      BexErr.MrdQueue tdEx.io_ops_data iouRd.file.engine_data iouRd
        iouRd.offset iouRd.xfer_buf iouRd.xfer_buflen :=
  queue_status_independent_of_MrdQueue_result BexErr tdEx iouRd (by decide)

/-- C10: `go_storage_event` ignores its event-index argument — any two
indices give identical behaviour — and always pops the next completion
via `MrdGetEvent` on the reactor token, writes the returned error code
into that `io_u`, and returns the `io_u` the backend supplied. -/
theorem event_ignores_index_and_pops_completion (B : Backend)
    (td : ThreadData) (ev1 ev2 ev : Int) :
    go_storage_event B td ev1 = go_storage_event B td ev2 ∧
    go_storage_event B td ev =
      ({ (B.MrdGetEvent td.io_ops_data).1 with
           error := (B.MrdGetEvent td.io_ops_data).2 },
       [MrdCall.getEventCall td.io_ops_data]) :=
  ⟨rfl, rfl⟩

/-- C5: `go_storage_init` fails (returns nonzero) exactly when
`MrdInit(td->o.iodepth)` returns the reserved zero token; otherwise it
stores the nonzero token in `td->io_ops_data` and returns 0, and every
later operation on the resulting thread state hands that stored token
to the backend (getevents, event, open_file, queue on a read, and
cleanup all trace calls on it). -/
theorem init_fails_iff_zero_token (B : Backend) (td : ThreadData) :
    ((go_storage_init B td).1 ≠ 0 ↔ B.MrdInit td.iodepth = 0) ∧
    (B.MrdInit td.iodepth ≠ 0 →
      (go_storage_init B td).1 = 0 ∧
      (go_storage_init B td).2.1.io_ops_data = B.MrdInit td.iodepth ∧
      (∀ mn mx t,
        (go_storage_getevents B (go_storage_init B td).2.1 mn mx t).2 =
          [MrdCall.awaitCall (B.MrdInit td.iodepth) mn mx]) ∧
      (∀ ev, (go_storage_event B (go_storage_init B td).2.1 ev).2 =
          [MrdCall.getEventCall (B.MrdInit td.iodepth)]) ∧
      (∀ f, (go_storage_open_file B (go_storage_init B td).2.1 f).2.2 =
          [MrdCall.openCall (B.MrdInit td.iodepth) f.file_name]) ∧
      (∀ iou, iou.ddir = DDIR_READ →
        (go_storage_queue B (go_storage_init B td).2.1 iou).2.2 =
          [MrdCall.queueCall (B.MrdInit td.iodepth) iou.file.engine_data iou
             iou.offset iou.xfer_buf iou.xfer_buflen]) ∧
      go_storage_cleanup (go_storage_init B td).2.1 =
        [MrdCall.cleanupCall (B.MrdInit td.iodepth)]) := by
  by_cases h0 : B.MrdInit td.iodepth = 0
  · constructor
    · simp [go_storage_init, h0]
    · intro h; exact absurd h0 h
  · refine ⟨by simp [go_storage_init, h0], fun _ => ?_⟩
    refine ⟨by simp [go_storage_init, h0], by simp [go_storage_init, h0],
      ?_, ?_, ?_, ?_, ?_⟩
    · intro mn mx t
      simp [go_storage_init, go_storage_getevents, h0]
    · intro ev
      simp [go_storage_init, go_storage_event, h0]
    · intro f
      by_cases ho : B.MrdOpen (B.MrdInit td.iodepth) f.file_name = 0 <;>
        simp [go_storage_init, go_storage_open_file, h0, ho]
    · intro iou hr
      simp [go_storage_init, go_storage_queue, h0, hr]
    · simp [go_storage_init, go_storage_cleanup, h0]

/-- Witness for C5: a succeeding backend stores and reuses the token;
a failing backend makes init return nonzero. -/
theorem init_fails_iff_zero_token_witness :
    (go_storage_init Bex tdEx).1 = 0 ∧
    (go_storage_init Bex tdEx).2.1.io_ops_data = Bex.MrdInit tdEx.iodepth ∧
    (go_storage_getevents Bex (go_storage_init Bex tdEx).2.1 1 2 none).2 =
      [MrdCall.awaitCall (Bex.MrdInit tdEx.iodepth) 1 2] ∧
    (go_storage_init BexErr tdEx).1 ≠ 0 :=
  have h2 := (init_fails_iff_zero_token Bex tdEx).2 (by decide)
  ⟨h2.1, h2.2.1, h2.2.2.1 1 2 none,
   (init_fails_iff_zero_token BexErr tdEx).1.mpr (by decide)⟩

/-- C6: `go_storage_open_file` fails (returns nonzero) exactly when
`MrdOpen` returns 0, and on failure `f` is left unchanged — no session
token is registered; on success the nonzero session token is stored in
`f->engine_data` and 0 is returned. -/
theorem open_file_fails_iff_zero_session (B : Backend) (td : ThreadData)
    (f : FioFile) :
    ((go_storage_open_file B td f).1 ≠ 0 ↔
       B.MrdOpen td.io_ops_data f.file_name = 0) ∧
    (B.MrdOpen td.io_ops_data f.file_name = 0 →
       go_storage_open_file B td f =
         (1, f, [MrdCall.openCall td.io_ops_data f.file_name])) ∧
    (B.MrdOpen td.io_ops_data f.file_name ≠ 0 →
       go_storage_open_file B td f =
         (0, { f with engine_data := B.MrdOpen td.io_ops_data f.file_name },
          [MrdCall.openCall td.io_ops_data f.file_name])) := by
  by_cases ho : B.MrdOpen td.io_ops_data f.file_name = 0
  · exact ⟨by simp [go_storage_open_file, ho],
      fun _ => by simp [go_storage_open_file, ho],
      fun h => absurd ho h⟩
  · exact ⟨by simp [go_storage_open_file, ho],
      fun h => absurd h ho,
      fun _ => by simp [go_storage_open_file, ho]⟩

/-- Witness for C6: a failing open leaves the file untouched and
returns 1; a succeeding open stores the session token and returns 0. -/
theorem open_file_fails_iff_zero_session_witness :
    go_storage_open_file BexErr tdEx fileEx =
      (1, fileEx, [MrdCall.openCall tdEx.io_ops_data fileEx.file_name]) ∧
    go_storage_open_file Bex tdEx fileEx =
      (0, { fileEx with
              engine_data := Bex.MrdOpen tdEx.io_ops_data fileEx.file_name },
       [MrdCall.openCall tdEx.io_ops_data fileEx.file_name]) :=
  ⟨(open_file_fails_iff_zero_session BexErr tdEx fileEx).2.1 (by decide),
   (open_file_fails_iff_zero_session Bex tdEx fileEx).2.2 (by decide)⟩

/-- C3 (reactor modelled from the spec): whenever `wait` returns — the
blocking hypothesis says at least `mn` completions are available once
the backend's schedule has run — the returned count `c` satisfies
`mn ≤ c ≤ mx`. -/
theorem wait_count_between (st : ReactorState) (mn mx : Nat)
    (sched : List Int) (hle : mn ≤ mx)
    (hblock : mn ≤ (reactorWait st mn mx sched).1.completed.length) :
    mn ≤ (reactorWait st mn mx sched).2 ∧
    (reactorWait st mn mx sched).2 ≤ mx := by
  unfold reactorWait at *
  exact ⟨Nat.le_min.mpr ⟨hblock, hle⟩, Nat.min_le_right _ _⟩

/-- Witness for C3: two requests in flight, one finished by the
schedule, `mn = 1`, `mx = 2`. -/
theorem wait_count_between_witness :
    1 ≤ (reactorWait ⟨2, [1, 2], []⟩ 1 2 [0]).2 ∧
    (reactorWait ⟨2, [1, 2], []⟩ 1 2 [0]).2 ≤ 2 :=
  wait_count_between ⟨2, [1, 2], []⟩ 1 2 [0] (by decide) (by decide)

/-- C4 (reactor modelled from the spec): for every capacity `C ≥ 1`,
`init(C)` yields a reactor of capacity `C` satisfying the invariant
that in-flight plus completed-but-undrained requests never exceed `C`,
the invariant is kept across every history of submissions, waits and
drains, a submission arriving when the queues are full is rejected
with an explicit error and the state is unchanged (never silently
dropped), and the adapter passes the host's configured iodepth as the
capacity to `MrdInit`. -/
theorem capacity_invariant_and_full_rejection (C : Nat) (hC : 1 ≤ C) :
    ∃ st, reactorInitModel C = some st ∧ st.capacity = C ∧ reactorInv st ∧
      (∀ ops, reactorInv (reactorExec st ops)) ∧
      (∀ st2 tok,
        st2.inFlight.length + st2.completed.length = st2.capacity →
        reactorSubmit st2 tok = (st2, EAGAIN)) ∧
      (∀ B td, (go_storage_init B td).2.2 = [MrdCall.initCall td.iodepth]) := by
  refine ⟨⟨C, [], []⟩, ?_, rfl, ?_, ?_, ?_, ?_⟩
  · unfold reactorInitModel
    have : C ≠ 0 := by omega
    simp [this]
  · unfold reactorInv; simp
  · intro ops
    exact reactorInv_exec ops _ (by unfold reactorInv; simp)
  · intro st2 tok hfull
    unfold reactorSubmit
    simp [hfull]
  · intro B td
    by_cases h : B.MrdInit td.iodepth = 0 <;> simp [go_storage_init, h]

/-- Witness for C4 at capacity 1. -/
theorem capacity_invariant_and_full_rejection_witness :
    ∃ st, reactorInitModel 1 = some st ∧ st.capacity = 1 ∧ reactorInv st ∧
      (∀ ops, reactorInv (reactorExec st ops)) ∧
      (∀ st2 tok,
        st2.inFlight.length + st2.completed.length = st2.capacity →
        reactorSubmit st2 tok = (st2, EAGAIN)) ∧
      (∀ B td, (go_storage_init B td).2.2 = [MrdCall.initCall td.iodepth]) :=
  capacity_invariant_and_full_rejection 1 (by decide)

end GoStorage
